import Mathlib

/-!
Shallow embedding of the trade-metrics pipeline of
`src/ibkr_stock_dashboard.py` (function `main`, lines 84-167).

Modelling conventions:
  - a pandas DataFrame of trade rows is a `List TradeRecord`;
  - nullable float columns are `Option ℚ`, with `none` standing for the
    NaN "absent" marker; a float expression that is non-finite (NaN from
    0/0, NaN propagated through arithmetic) is likewise modelled as `none`;
  - pandas `Series.sum` skips NaN (skipna default), hence the `Option.getD 0`
    in the summation helpers;
  - `datetime.strptime(x, %Y-%m-%d).date()` is `parseDate`, and subtraction
    of `datetime.date` values measured in days is a difference of proleptic
    Gregorian ordinals (`dateOrdinal` follows CPython `date.toordinal`).
-/

namespace IBKR

/-- A calendar date as produced by `datetime.strptime(x, %Y-%m-%d).date()`. -/
structure Date where
  year : ℕ
  month : ℕ
  day : ℕ
deriving DecidableEq, Repr

/-- Gregorian leap-year rule, as in CPython `datetime.isleap`. -/
def isLeap (y : ℕ) : Bool :=
  y % 4 == 0 && (y % 100 != 0 || y % 400 == 0)

/-- Number of days of month `m` (1-based) of year `y`. -/
def daysInMonth (y m : ℕ) : ℕ :=
  [31, if isLeap y then 29 else 28, 31, 30, 31, 30, 31, 31, 30, 31, 30, 31].getD (m - 1) 0

/-- Days in year `y` strictly before month `m`. -/
def daysBeforeMonth (y m : ℕ) : ℕ :=
  ((List.range (m - 1)).map (fun i => daysInMonth y (i + 1))).sum

/-- Days strictly before January 1 of year `y`, counting from year 1
(CPython `datetime._days_before_year`). -/
def daysBeforeYear (y : ℕ) : ℕ :=
  let n := y - 1
  n * 365 + n / 4 - n / 100 + n / 400

/-- Proleptic Gregorian ordinal of a date, matching CPython
`date.toordinal` (January 1 of year 1 is day 1). -/
def dateOrdinal (d : Date) : ℕ :=
  daysBeforeYear d.year + daysBeforeMonth d.year d.month + d.day

/-- Difference of two dates in whole days, the `.days` of a Python
`date` subtraction. -/
def dateDiffDays (a b : Date) : ℤ :=
  (dateOrdinal a : ℤ) - (dateOrdinal b : ℤ)

/-- Reads a list of decimal digit characters as a number. -/
def digitsToNat (cs : List Char) : Option ℕ :=
  if cs ≠ [] ∧ cs.all Char.isDigit then
    some (cs.foldl (fun a c => a * 10 + (c.toNat - 48)) 0)
  else none

/-- Splits a character list on the dash separator. -/
def splitDash : List Char → List (List Char)
  | [] => [[]]
  | c :: rest =>
    let r := splitDash rest
    if c = '-' then [] :: r
    else (c :: r.headD []) :: r.tail

/-- Embeds `datetime.strptime(x, %Y-%m-%d).date()`: a four-digit year, a
one- or two-digit month and day, dash-separated, with the month and the
day validated against the calendar; `none` is the `ValueError` raised on a
malformed string. -/
def parseDate (s : String) : Option Date :=
  match splitDash s.data with
  | [ys, ms, ds] =>
    match digitsToNat ys, digitsToNat ms, digitsToNat ds with
    | some y, some m, some d =>
      if ys.length = 4 ∧ ms.length ≤ 2 ∧ ds.length ≤ 2 ∧
          1 ≤ m ∧ m ≤ 12 ∧ 1 ≤ d ∧ d ≤ daysInMonth y m ∧ 1 ≤ y then
        some ⟨y, m, d⟩
      else none
    | _, _, _ => none
  | _ => none

/-- One row of the trade-report DataFrame. Raw CSV columns keep their
source names; the derived columns `DTE` and `Unrealized` start out absent,
as before the corresponding assignment in `main`. -/
structure TradeRecord where
  Symbol : String
  Pos : String
  exp_dt : String
  Profit : ℚ
  EntrySum : ℚ
  MarkPrice : Option ℚ := none
  OpenPrice : Option ℚ := none
  PositionValue : Option ℚ := none
  FifoPnlUnrealized : Option ℚ := none
  DTE : Option ℤ := none
  Unrealized : Option ℚ := none
deriving DecidableEq, Repr

/-- Lines 85-86: `trade_df[Profit] *= 100` and `trade_df[EntrySum] *= 100`,
the unconditional options contract-multiplier scaling. -/
def scaleForOptions (r : TradeRecord) : TradeRecord :=
  { r with Profit := r.Profit * 100, EntrySum := r.EntrySum * 100 }

/-- Line 90: `trade_df[DTE] = trade_df[exp_dt].apply(lambda x:
(strptime(x).date() - today).days)`. -/
def deriveDTE (today : Date) (r : TradeRecord) : TradeRecord :=
  { r with DTE := (parseDate r.exp_dt).map (fun d => dateDiffDays d today) }

/-- IEEE-style subtraction on nullable floats: NaN propagates. -/
def nanSub : Option ℚ → Option ℚ → Option ℚ
  | some a, some b => some (a - b)
  | _, _ => none

/-- IEEE-style multiplication on nullable floats: NaN propagates. -/
def nanMul : Option ℚ → Option ℚ → Option ℚ
  | some a, some b => some (a * b)
  | _, _ => none

/-- Lines 100-104: the `Unrealized` column,
`(MarkPrice - OpenPrice) * PositionValue` when `Pos == open` and neither
`MarkPrice` nor `OpenPrice` is null, else `0`. The guard does not test
`PositionValue`, so a null `PositionValue` propagates NaN through the
product. -/
def deriveUnrealized (r : TradeRecord) : TradeRecord :=
  { r with Unrealized :=
      if r.Pos == "open" && r.MarkPrice.isSome && r.OpenPrice.isSome then
        nanMul (nanSub r.MarkPrice r.OpenPrice) r.PositionValue
      else some 0 }

/-- Line 93: `closed_df = trade_df[trade_df[Pos] == close]`. -/
def closedDf (df : List TradeRecord) : List TradeRecord :=
  df.filter (fun r => r.Pos == "close")

/-- Line 94: `total_profit = closed_df[Profit].sum()`. -/
def total_profit (df : List TradeRecord) : ℚ :=
  ((closedDf df).map (fun r => r.Profit)).sum

/-- Line 95: `total_entry = closed_df[EntrySum].sum()`. -/
def total_entry (df : List TradeRecord) : ℚ :=
  ((closedDf df).map (fun r => r.EntrySum)).sum

/-- Line 96: `percent_roi = total_profit / total_entry * 100 if
total_entry != 0 else 0`. -/
def percent_roi (df : List TradeRecord) : ℚ :=
  if total_entry df ≠ 0 then total_profit df / total_entry df * 100 else 0

/-- Line 97: `total_unrealized = trade_df[FifoPnlUnrealized].sum()` over the
full frame; pandas `sum` skips NaN entries. -/
def total_unrealized (df : List TradeRecord) : ℚ :=
  (df.map (fun r => r.FifoPnlUnrealized.getD 0)).sum

/-- Lines 117-122: the trade-status dropdown. `Open` and `Close` select by
`Pos`; the `else` branch returns the whole frame for any other value of
`status_filter`, the `All` choice included. -/
def filteredDf (status : String) (df : List TradeRecord) : List TradeRecord :=
  if status == "Open" then df.filter (fun r => r.Pos == "open")
  else if status == "Close" then df.filter (fun r => r.Pos == "close")
  else df

/-- Lines 151-154: closed entries restricted to `Profit >= 0` for the pie
chart. -/
def closedNonNeg (df : List TradeRecord) : List TradeRecord :=
  (closedDf df).filter (fun r => decide (0 ≤ r.Profit))

/-- Line 157 `groupby(Symbol)`: the distinct symbols of the filtered closed
entries. Pandas emits the groups sorted by key; no claim here depends on
the order of the groups, so the distinct symbols are taken in `dedup`
order. -/
def pieSymbols (df : List TradeRecord) : List String :=
  ((closedNonNeg df).map (fun r => r.Symbol)).dedup

/-- Line 157 `agg(Profit, sum)`: the summed profit of one symbol group. -/
def symProfit (df : List TradeRecord) (s : String) : ℚ :=
  (((closedNonNeg df).filter (fun r => r.Symbol == s)).map (fun r => r.Profit)).sum

/-- Line 160: `total_profit_for_pie = closed_entries_grouped[Profit].sum()`,
the sum over the grouped frame. -/
def totalProfitForPie (df : List TradeRecord) : ℚ :=
  ((pieSymbols df).map (symProfit df)).sum

/-- Line 161: `ProfitPercent = Profit / total_profit_for_pie * 100`, with no
zero guard; when the denominator is `0` the only reachable float division
is `0/0`, whose NaN result is `none`. -/
def profitSharePercent (df : List TradeRecord) (s : String) : Option ℚ :=
  if totalProfitForPie df = 0 then none
  else some (symProfit df s / totalProfitForPie df * 100)

/-- The text of a pie label, `{Symbol} ({ProfitPercent:.2f}%)`. The
two-decimal rendering of the share is kept abstract as the decimal string
of the rational; no claim inspects the digits. -/
def labelText (s : String) (p : ℚ) : String :=
  s ++ " (" ++ toString p ++ "%)"

/-- Lines 164-167: the `Label` column, the formatted text when
`ProfitPercent >= 10` and the empty string otherwise; a NaN share compares
false and also yields the empty string. -/
def pieLabel (df : List TradeRecord) (s : String) : String :=
  match profitSharePercent df s with
  | some p => if 10 ≤ p then labelText s p else ""
  | none => ""

/-- The profit mass that the records of one symbol contribute to a frame:
the common shape of `symProfit` over the filtered closed entries. -/
def fiberSum (l : List TradeRecord) (s : String) : ℚ :=
  ((l.filter (fun r => r.Symbol == s)).map (fun r => r.Profit)).sum

/-- Sample closed record of the spec example: AAPL, entry 100, profit 20. -/
def exAAPL : TradeRecord :=
  { Symbol := "AAPL", Pos := "close", exp_dt := "2024-01-01", Profit := 20, EntrySum := 100 }

/-- Sample closed record of the spec example: MSFT, entry 50, profit -5. -/
def exMSFT : TradeRecord :=
  { Symbol := "MSFT", Pos := "close", exp_dt := "2024-01-01", Profit := -5, EntrySum := 50 }

/-- The record set of the spec summary example. -/
def exSummaryDf : List TradeRecord := [exAAPL, exMSFT]

/-- An open record whose warehouse `FifoPnlUnrealized` (7) differs from its
locally derivable unrealized value ((5-3)*2 = 4). -/
def exOpenFifo : TradeRecord :=
  { Symbol := "QQQ", Pos := "open", exp_dt := "2024-06-21", Profit := 0, EntrySum := 0,
    MarkPrice := some 5, OpenPrice := some 3, PositionValue := some 2,
    FifoPnlUnrealized := some 7 }

/-- A closed record with zero profit: its pie group makes the share
denominator zero. -/
def exZeroProfit : TradeRecord :=
  { Symbol := "IWM", Pos := "close", exp_dt := "2024-01-01", Profit := 0, EntrySum := 10 }

/-- A raw row of the normalization example: profit 0.2, entry sum 1.5. -/
def exRaw : TradeRecord :=
  { Symbol := "TSLA", Pos := "close", exp_dt := "2024-01-01", Profit := 2/10, EntrySum := 15/10 }

/-- An open record with both prices present but `PositionValue` null. -/
def exNoPosVal : TradeRecord :=
  { Symbol := "AMD", Pos := "open", exp_dt := "2024-01-01", Profit := 0, EntrySum := 0,
    MarkPrice := some 5, OpenPrice := some 3, PositionValue := none }

/-- Mapped sums distribute over pointwise addition. -/
theorem sum_map_add (F G : String → ℚ) :
    ∀ K : List String, (K.map (fun s => F s + G s)).sum = (K.map F).sum + (K.map G).sum := by
  intro K
  induction K with
  | nil => simp
  | cons k K ih => simp [ih]; ring

/-- A single-point indicator sums to zero over a list avoiding the point. -/
theorem sum_map_indicator_of_not_mem (b : String) (c : ℚ) :
    ∀ K : List String, b ∉ K → (K.map (fun s => if b = s then c else 0)).sum = 0 := by
  intro K
  induction K with
  | nil => simp
  | cons k K ih =>
    intro h
    have hbk : b ≠ k := fun he => h (he ▸ List.mem_cons_self k K)
    have hbK : b ∉ K := fun hm => h (List.mem_cons_of_mem k hm)
    simp [hbk, ih hbK]

/-- A single-point indicator sums to its value over a duplicate-free list
containing the point. -/
theorem sum_map_indicator_of_mem (b : String) (c : ℚ) :
    ∀ K : List String, K.Nodup → b ∈ K → (K.map (fun s => if b = s then c else 0)).sum = c := by
  intro K
  induction K with
  | nil => intro _ h; simp at h
  | cons k K ih =>
    intro hnd hmem
    rcases List.mem_cons.mp hmem with he | hK
    · subst he
      have hbK : b ∉ K := (List.nodup_cons.mp hnd).1
      simp [sum_map_indicator_of_not_mem b c K hbK]
    · have hbk : b ≠ k := by
        intro he
        exact (List.nodup_cons.mp hnd).1 (he ▸ hK)
      simp [hbk, ih (List.nodup_cons.mp hnd).2 hK]

/-- Consing a record adds its profit to its own symbol fiber and leaves the
other fibers alone. -/
theorem fiberSum_cons (a : TradeRecord) (l : List TradeRecord) (s : String) :
    fiberSum (a :: l) s = (if a.Symbol = s then a.Profit else 0) + fiberSum l s := by
  by_cases h : a.Symbol = s
  · simp [fiberSum, List.filter_cons, h]
  · simp [fiberSum, List.filter_cons, h]

/-- A symbol occurring nowhere in a frame has an empty fiber. -/
theorem fiberSum_eq_zero (l : List TradeRecord) (s : String)
    (h : s ∉ l.map (fun r => r.Symbol)) : fiberSum l s = 0 := by
  have hnil : l.filter (fun r => r.Symbol == s) = [] := by
    rw [List.filter_eq_nil_iff]
    intro r hr
    simp only [beq_iff_eq]
    intro he
    exact h (he ▸ List.mem_map_of_mem (fun r => r.Symbol) hr)
  simp [fiberSum, hnil]

/-- Grouping a frame by symbol and summing each group recovers the total
profit: the fibers over the distinct symbols partition the records. -/
theorem fiber_dedup_sum :
    ∀ l : List TradeRecord,
      (((l.map (fun r => r.Symbol)).dedup).map (fiberSum l)).sum
        = (l.map (fun r => r.Profit)).sum := by
  intro l
  induction l with
  | nil => simp
  | cons a l ih =>
    have hfs : fiberSum (a :: l) =
        fun s => (if a.Symbol = s then a.Profit else 0) + fiberSum l s :=
      funext (fiberSum_cons a l)
    have hmapcons : ((a :: l).map (fun r => r.Symbol)) = a.Symbol :: l.map (fun r => r.Symbol) := rfl
    by_cases hm : a.Symbol ∈ l.map (fun r => r.Symbol)
    · rw [hmapcons, List.dedup_cons_of_mem hm, hfs,
        sum_map_add (fun s => if a.Symbol = s then a.Profit else 0) (fiberSum l),
        sum_map_indicator_of_mem a.Symbol a.Profit _ (List.nodup_dedup _)
          (List.mem_dedup.mpr hm), ih]
      simp
    · rw [hmapcons, List.dedup_cons_of_not_mem hm, List.map_cons, List.sum_cons, hfs,
        sum_map_add (fun s => if a.Symbol = s then a.Profit else 0) (fiberSum l),
        sum_map_indicator_of_not_mem a.Symbol a.Profit _
          (fun hc => hm (List.mem_dedup.mp hc))]
      simp [fiberSum_eq_zero l a.Symbol hm, ih]

/-- The formatted pie label is never the empty string. -/
theorem labelText_ne_empty (s : String) (p : ℚ) : labelText s p ≠ "" := by
  intro h
  have hlen := congrArg String.length h
  simp [labelText, String.length_append] at hlen
  exact absurd hlen.1.1.2 (by decide)

/-- C1: the derived unrealized value equals
(mark_price - open_price) * position_value exactly when the record is OPEN
with both prices present, and is the zero default (not the absent marker)
in every other case. -/
theorem unrealized_open_rule (r : TradeRecord) :
    (∀ m o, r.Pos = "open" → r.MarkPrice = some m → r.OpenPrice = some o →
      (deriveUnrealized r).Unrealized = r.PositionValue.map (fun p => (m - o) * p)) ∧
    (r.Pos ≠ "open" ∨ r.MarkPrice = none ∨ r.OpenPrice = none →
      (deriveUnrealized r).Unrealized = some 0) := by
  constructor
  · intro m o hp hm ho
    cases hv : r.PositionValue <;>
      simp [deriveUnrealized, hp, hm, ho, hv, nanSub, nanMul]
  · rintro (h | h | h) <;> simp [deriveUnrealized, h]

/-- Witness for C1 at concrete records: an open record with prices 5 and 3
and position value 2 gets unrealized 4; a closed record gets 0. -/
theorem unrealized_open_rule_witness :
    (deriveUnrealized exOpenFifo).Unrealized = some 4 ∧
    (deriveUnrealized exAAPL).Unrealized = some 0 := by
  constructor
  · have h := (unrealized_open_rule exOpenFifo).1 5 3 rfl rfl rfl
    rw [h]
    norm_num [exOpenFifo]
  · exact (unrealized_open_rule exAAPL).2 (Or.inl (by decide))

/-- C10: the guard of the unrealized derivation does not test
position_value, so an OPEN record with both prices present but a null
position_value yields the absent marker (NaN), not 0. -/
theorem unrealized_nan_on_missing_position_value (r : TradeRecord)
    (hp : r.Pos = "open") (hm : r.MarkPrice.isSome) (ho : r.OpenPrice.isSome)
    (hv : r.PositionValue = none) :
    (deriveUnrealized r).Unrealized = none ∧ (deriveUnrealized r).Unrealized ≠ some 0 := by
  obtain ⟨m, hm2⟩ := Option.isSome_iff_exists.mp hm
  obtain ⟨o, ho2⟩ := Option.isSome_iff_exists.mp ho
  constructor <;> simp [deriveUnrealized, hp, hm2, ho2, hv, nanSub, nanMul]

/-- Witness for C10 at a concrete record with prices 5 and 3 and a null
position value. -/
theorem unrealized_nan_on_missing_position_value_witness :
    (deriveUnrealized exNoPosVal).Unrealized = none ∧
    (deriveUnrealized exNoPosVal).Unrealized ≠ some 0 :=
  unrealized_nan_on_missing_position_value exNoPosVal rfl rfl rfl rfl

/-- C6 counterexample: the view value Banana is neither Open, Close nor
All, yet the filter returns the full record set instead of failing: the
source has no InvalidFilterError and its else branch accepts every value. -/
theorem invalid_filter_counterexample : filteredDf "Banana" [exAAPL] = [exAAPL] := by
  simp [filteredDf]

/-- C6 amended: every view value other than Open and Close, unknown values
included, selects the full record set; no failure path exists. -/
theorem unknown_view_returns_all (s : String) (df : List TradeRecord)
    (h1 : s ≠ "Open") (h2 : s ≠ "Close") : filteredDf s df = df := by
  simp [filteredDf, h1, h2]

/-- Witness for the amended C6 at the view value All. -/
theorem unknown_view_returns_all_witness : filteredDf "All" exSummaryDf = exSummaryDf :=
  unknown_view_returns_all "All" exSummaryDf (by decide) (by decide)

/-- C7: days-to-expiration is the exact integer day difference between the
parsed expiration date and the current date, negative for past expirations;
the spec example 2024-01-01 minus 2023-12-20 gives 12. -/
theorem dte_day_difference :
    (∀ (t : Date) (r : TradeRecord) (d : Date), parseDate r.exp_dt = some d →
      (deriveDTE t r).DTE = some (dateDiffDays d t)) ∧
    (deriveDTE ⟨2023, 12, 20⟩ exAAPL).DTE = some 12 ∧
    (deriveDTE ⟨2024, 1, 5⟩ exAAPL).DTE = some (-4) := by
  refine ⟨?_, by decide, by decide⟩
  intro t r d h
  simp [deriveDTE, h]

/-- Witness for C7 applying the universal part at the spec example. -/
theorem dte_day_difference_witness :
    (deriveDTE ⟨2023, 12, 20⟩ exAAPL).DTE = some (dateDiffDays ⟨2024, 1, 1⟩ ⟨2023, 12, 20⟩) :=
  dte_day_difference.1 ⟨2023, 12, 20⟩ exAAPL ⟨2024, 1, 1⟩ (by decide)

/-- C8: normalization scales profit and entry sum by 100 unconditionally
(raw 0.2 and 1.5 become 20 and 150), and no downstream stage rescales: the
two derivation steps keep both fields, and the filter only selects records
of its input; the aggregator returns scalars and no records at all. -/
theorem options_scaling_once :
    (∀ r : TradeRecord, (scaleForOptions r).Profit = r.Profit * 100 ∧
        (scaleForOptions r).EntrySum = r.EntrySum * 100) ∧
    (∀ (t : Date) (r : TradeRecord), (deriveDTE t r).Profit = r.Profit ∧
        (deriveDTE t r).EntrySum = r.EntrySum) ∧
    (∀ r : TradeRecord, (deriveUnrealized r).Profit = r.Profit ∧
        (deriveUnrealized r).EntrySum = r.EntrySum) ∧
    (∀ (s : String) (df : List TradeRecord) (r : TradeRecord),
        r ∈ filteredDf s df → r ∈ df) ∧
    ((scaleForOptions exRaw).Profit = 20 ∧ (scaleForOptions exRaw).EntrySum = 150) := by
  refine ⟨fun r => ⟨rfl, rfl⟩, fun t r => ⟨rfl, rfl⟩, fun r => ⟨rfl, rfl⟩, ?_, ?_⟩
  · intro s df r h
    simp only [filteredDf] at h
    split at h
    · exact List.mem_of_mem_filter h
    · split at h
      · exact List.mem_of_mem_filter h
      · exact h
  · constructor <;> norm_num [scaleForOptions, exRaw]

/-- Witness for C8: the filter-membership part at a concrete frame and the
scaling part at the raw example record. -/
theorem options_scaling_once_witness :
    exAAPL ∈ exSummaryDf ∧ (scaleForOptions exRaw).Profit = exRaw.Profit * 100 :=
  ⟨options_scaling_once.2.2.2.1 "All" exSummaryDf exAAPL (by simp [filteredDf, exSummaryDf]),
   (options_scaling_once.1 exRaw).1⟩

/-- C2: the portfolio summary sums profit and entry sum over CLOSED records
only (a non-closed record changes neither, a closed one adds its own),
while total_unrealized adds the warehouse FifoPnlUnrealized of every
record; the spec example gives total_profit 15, total_entry 150,
percent_roi 10; and on a frame of one open record the warehouse sum is 7
while the locally derived unrealized sums to 4. -/
theorem portfolio_summary_rule :
    (∀ (df : List TradeRecord) (r : TradeRecord), r.Pos ≠ "close" →
        total_profit (r :: df) = total_profit df ∧ total_entry (r :: df) = total_entry df) ∧
    (∀ (df : List TradeRecord) (r : TradeRecord), r.Pos = "close" →
        total_profit (r :: df) = r.Profit + total_profit df ∧
        total_entry (r :: df) = r.EntrySum + total_entry df) ∧
    (∀ (df : List TradeRecord) (r : TradeRecord),
        total_unrealized (r :: df) = r.FifoPnlUnrealized.getD 0 + total_unrealized df) ∧
    (total_profit exSummaryDf = 15 ∧ total_entry exSummaryDf = 150 ∧
        percent_roi exSummaryDf = 10) ∧
    (total_unrealized [exOpenFifo] = 7 ∧
        (([exOpenFifo].map deriveUnrealized).map (fun r => r.Unrealized.getD 0)).sum = 4) := by
  refine ⟨?_, ?_, ?_, ?_, ?_, ?_⟩
  · intro df r h
    constructor <;> simp [total_profit, total_entry, closedDf, List.filter_cons, h]
  · intro df r h
    constructor <;> simp [total_profit, total_entry, closedDf, List.filter_cons, h]
  · intro df r
    simp [total_unrealized]
  · refine ⟨?_, ?_, ?_⟩ <;>
      norm_num [percent_roi, total_profit, total_entry, closedDf, exSummaryDf,
        exAAPL, exMSFT, List.filter_cons]
  · norm_num [total_unrealized, exOpenFifo]
  · norm_num [deriveUnrealized, exOpenFifo, nanSub, nanMul]

/-- Witness for C2: the closed-only summation parts applied at concrete
records, an open one leaving the sums unchanged and a closed one adding
its profit. -/
theorem portfolio_summary_rule_witness :
    (total_profit (exOpenFifo :: exSummaryDf) = total_profit exSummaryDf) ∧
    (total_profit (exAAPL :: exSummaryDf) = exAAPL.Profit + total_profit exSummaryDf) ∧
    (total_unrealized (exOpenFifo :: exSummaryDf) =
        exOpenFifo.FifoPnlUnrealized.getD 0 + total_unrealized exSummaryDf) :=
  ⟨(portfolio_summary_rule.1 exSummaryDf exOpenFifo (by decide)).1,
   (portfolio_summary_rule.2.1 exSummaryDf exAAPL (by decide)).1,
   portfolio_summary_rule.2.2.1 exSummaryDf exOpenFifo⟩

/-- C4 counterexample: on a frame whose single closed record has profit 0
the pie denominator is 0, and the computed share is the NaN marker of the
unguarded 0/0 float division, not the value 0 the claim promises. -/
theorem division_guard_counterexample :
    totalProfitForPie [exZeroProfit] = 0 ∧
    profitSharePercent [exZeroProfit] "IWM" = none ∧
    profitSharePercent [exZeroProfit] "IWM" ≠ some 0 := by
  have h : totalProfitForPie [exZeroProfit] = 0 := by
    norm_num [totalProfitForPie, pieSymbols, symProfit, closedNonNeg, closedDf,
      exZeroProfit, List.filter_cons]
  refine ⟨h, ?_, ?_⟩ <;> simp [profitSharePercent, h]

/-- C4 amended: percent_roi and profit_share_percent are total (never
raise); percent_roi returns 0 on a zero total entry, while
profit_share_percent on a zero grouped total yields the non-finite NaN
marker of 0/0, not 0. -/
theorem division_guard_amended (df : List TradeRecord) :
    (total_entry df = 0 → percent_roi df = 0) ∧
    (totalProfitForPie df = 0 → ∀ s, profitSharePercent df s = none) := by
  constructor
  · intro h
    simp [percent_roi, h]
  · intro h s
    simp [profitSharePercent, h]

/-- Witness for the amended C4 at the empty frame. -/
theorem division_guard_amended_witness :
    percent_roi [] = 0 ∧ profitSharePercent [] "AAPL" = none :=
  ⟨(division_guard_amended []).1 (by simp [total_entry, closedDf]),
   (division_guard_amended []).2 (by simp [totalProfitForPie, pieSymbols, closedNonNeg, closedDf]) "AAPL"⟩

/-- C3: the pie grouping keeps exactly the CLOSED records with
non-negative profit, the share of a group is its profit against the
grouped filtered total, a label is attached exactly when the share is at
least 10 percent (empty otherwise), and the groups' summed profits add up
to the sum of the non-negative profits among the closed records. -/
theorem symbol_grouping_rule (df : List TradeRecord) :
    (∀ r, r ∈ closedNonNeg df → r.Pos = "close" ∧ 0 ≤ r.Profit) ∧
    (∀ r, r.Profit < 0 → r ∉ closedNonNeg df) ∧
    (totalProfitForPie df ≠ 0 → ∀ s,
        profitSharePercent df s = some (symProfit df s / totalProfitForPie df * 100)) ∧
    (∀ s, pieLabel df s ≠ "" ↔ ∃ p, profitSharePercent df s = some p ∧ 10 ≤ p) ∧
    (∀ s p, profitSharePercent df s = some p → 10 ≤ p → pieLabel df s = labelText s p) ∧
    (((pieSymbols df).map (symProfit df)).sum =
        (((df.filter (fun r => r.Pos == "close")).filter (fun r => decide (0 ≤ r.Profit))).map
            (fun r => r.Profit)).sum) := by
  have hmem : ∀ r, r ∈ closedNonNeg df → r.Pos = "close" ∧ 0 ≤ r.Profit := by
    intro r h
    simp [closedNonNeg, closedDf, List.mem_filter] at h
    tauto
  refine ⟨hmem, ?_, ?_, ?_, ?_, ?_⟩
  · intro r hneg hin
    exact absurd (hmem r hin).2 (not_le.mpr hneg)
  · intro h s
    simp [profitSharePercent, h]
  · intro s
    cases hps : profitSharePercent df s with
    | none => simp [pieLabel, hps]
    | some p =>
      by_cases h10 : 10 ≤ p
      · simp only [pieLabel, hps, h10, if_true]
        constructor
        · intro _
          exact ⟨p, rfl, h10⟩
        · intro _
          exact labelText_ne_empty s p
      · simp only [pieLabel, hps, h10, if_false]
        constructor
        · intro h
          exact absurd rfl h
        · rintro ⟨q, hq, hq10⟩
          cases hq
          exact absurd hq10 h10
  · intro s p hps h10
    simp [pieLabel, hps, h10]
  · exact fiber_dedup_sum (closedNonNeg df)

/-- Witness for C3 at the spec example frame: MSFT (profit -5) is excluded
from the grouping, AAPL carries the whole grouped total with share 100
percent, and its label is attached. -/
theorem symbol_grouping_rule_witness :
    (exMSFT ∉ closedNonNeg exSummaryDf) ∧
    (profitSharePercent exSummaryDf "AAPL" =
        some (symProfit exSummaryDf "AAPL" / totalProfitForPie exSummaryDf * 100)) ∧
    (pieLabel exSummaryDf "AAPL" = labelText "AAPL" 100) := by
  refine ⟨(symbol_grouping_rule exSummaryDf).2.1 exMSFT (by norm_num [exMSFT]),
    (symbol_grouping_rule exSummaryDf).2.2.1 ?_ "AAPL",
    (symbol_grouping_rule exSummaryDf).2.2.2.2.1 "AAPL" 100 ?_ (by norm_num)⟩
  · norm_num [totalProfitForPie, pieSymbols, symProfit, closedNonNeg, closedDf,
      exSummaryDf, exAAPL, exMSFT, List.filter_cons]
  · norm_num [profitSharePercent, totalProfitForPie, pieSymbols, symProfit,
      closedNonNeg, closedDf, exSummaryDf, exAAPL, exMSFT, List.filter_cons]

/-- C9: the Open view and the Close view are disjoint, and when every
record of the frame carries one of the two lifecycle states their union is
exactly the All view, as sets. -/
theorem open_close_partition (df : List TradeRecord) :
    (∀ r, r ∈ filteredDf "Open" df → r ∉ filteredDf "Close" df) ∧
    ((∀ r ∈ df, r.Pos = "open" ∨ r.Pos = "close") →
      ∀ r, r ∈ filteredDf "All" df ↔
        (r ∈ filteredDf "Open" df ∨ r ∈ filteredDf "Close" df)) := by
  have hOpen : filteredDf "Open" df = df.filter (fun r => r.Pos == "open") := by
    simp [filteredDf]
  have hClose : filteredDf "Close" df = df.filter (fun r => r.Pos == "close") := by
    simp [filteredDf]
  have hAll : filteredDf "All" df = df := by
    simp [filteredDf]
  constructor
  · intro r h1 h2
    rw [hOpen] at h1
    rw [hClose] at h2
    have e1 := (List.mem_filter.mp h1).2
    have e2 := (List.mem_filter.mp h2).2
    simp only [beq_iff_eq] at e1 e2
    exact absurd (e1 ▸ e2) (by decide)
  · intro henum r
    rw [hAll, hOpen, hClose]
    constructor
    · intro hr
      rcases henum r hr with h | h
      · exact Or.inl (List.mem_filter.mpr ⟨hr, by simp [h]⟩)
      · exact Or.inr (List.mem_filter.mpr ⟨hr, by simp [h]⟩)
    · rintro (h | h) <;> exact (List.mem_filter.mp h).1

/-- Witness for C9 at the spec example frame, whose records are all
closed. -/
theorem open_close_partition_witness :
    exAAPL ∈ filteredDf "All" exSummaryDf ↔
      (exAAPL ∈ filteredDf "Open" exSummaryDf ∨ exAAPL ∈ filteredDf "Close" exSummaryDf) :=
  (open_close_partition exSummaryDf).2
    (by
      intro r hr
      simp [exSummaryDf, exAAPL, exMSFT] at hr
      rcases hr with h | h <;> simp [h, exAAPL, exMSFT])
    exAAPL

end IBKR
